import Mathlib

/-!
Shallow embedding of the route module
`app/routes/users+/$username_+/notes.$noteId.tsx` (exercise
07.permissions/04.problem.utils): the note-view loader, the delete-note
action, capability gating in the rendered view, and the page metadata.

The persistence layer (Prisma) is modelled as an in-memory store `DB`
holding notes, users and permissions; the Prisma queries of the source are
translated into `List.find?` / `List.any` over that store.  Framework
concerns (session lookup, date formatting, JSX) are out of scope except for
the boolean/response-shaping logic the claims are about.
-/

/-- An image attached to a note (`images: select id, altText` in the
projection of the loader). -/
structure NoteImage where
  id : String
  altText : Option String
deriving DecidableEq, Repr

/-- A note row, with the fields this route ever selects
(`id, title, content, ownerId, updatedAt, images`). -/
structure Note where
  id : String
  title : String
  content : String
  ownerId : String
  updatedAt : String
  images : List NoteImage
deriving DecidableEq, Repr

/-- A user row (`id`, `username`, optional display `name`). -/
structure User where
  id : String
  username : String
  name : Option String
deriving DecidableEq, Repr

/-- A role: the set of users holding it, by user id.  (Only the
`users: some: id` part of the relation is ever queried here.) -/
structure Role where
  users : List String
deriving DecidableEq, Repr

/-- A permission record: `(entity, action, access)` tags plus the roles
that carry it.  A user holds the permission when some carrying role lists
the user. -/
structure Permission where
  entity : String
  action : String
  access : String
  roles : List Role
deriving DecidableEq, Repr

/-- The store the route queries: note, user and permission tables. -/
structure DB where
  notes : List Note
  users : List User
  permissions : List Permission
deriving DecidableEq, Repr

/-- The `where` clause of the `prisma.permission.findFirst` query that both
the loader and the action issue:
`roles: some users some id = userId`, `entity: "note"`,
`action: "delete"`, and
`access: note.ownerId === userId ? in ["any", "own"] : "any"`. -/
def permissionMatches (userId ownerId : String) (p : Permission) : Bool :=
  p.roles.any (fun r => r.users.any (fun u => u == userId)) &&
  p.entity == "note" &&
  p.action == "delete" &&
  (if ownerId == userId then p.access == "any" || p.access == "own"
   else p.access == "any")

/-- `Boolean(permission)` for the `findFirst` above: some permission row in
the store matches the query. -/
def hasDeletePermission (db : DB) (userId ownerId : String) : Bool :=
  db.permissions.any (permissionMatches userId ownerId)

/-- The delete-permission predicate as the specification words it: there
exists a permission record with entity "note" and action "delete", held by
the user through some role, whose access is "any", or whose access is "own"
while the user owns the note.  (Spec-side definition, to be compared
with `hasDeletePermission` which is translated from the source query.) -/
def canDeleteSpec (db : DB) (userId : String) (note : Note) : Prop :=
  ∃ p, p ∈ db.permissions ∧ p.entity = "note" ∧ p.action = "delete" ∧
    (∃ r, r ∈ p.roles ∧ userId ∈ r.users) ∧
    (p.access = "any" ∨ (p.access = "own" ∧ userId = note.ownerId))

/-- What the loader responds with: a thrown 404 (`invariantResponse`) or the
`json` payload.  `permissionQueried` records whether the
`prisma.permission.findFirst` call was issued (the source guards it with
`userId ? ... : null`). -/
inductive LoaderResult where
  | error (status : Nat) (message : String)
  | success (note : Note) (canDelete : Bool) (permissionQueried : Bool)
deriving DecidableEq, Repr

/-- HTTP status of a loader result (`json` defaults to 200). -/
def LoaderResult.statusCode : LoaderResult → Nat
  | .error s _ => s
  | .success _ _ _ => 200

/-- The loader: look the note up by the route param
(`prisma.note.findUnique where id = params.noteId`), 404 when absent, then
compute `canDelete` — querying the permission table only when a user id is
present (`getUserId` returned one). -/
def loader (db : DB) (userIdOpt : Option String) (noteIdParam : String) :
    LoaderResult :=
  match db.notes.find? (fun n => n.id == noteIdParam) with
  | none => .error 404 "Not found"
  | some note =>
    match userIdOpt with
    | none => .success note false false
    | some userId =>
      .success note (hasDeletePermission db userId note.ownerId) true

/-- A form submission as seen by the conform `parse` helper: the submission intent
("submit" for a plain submit; other values re-render without acting) and
the raw field payload. -/
structure Submission where
  intent : String
  payload : List (String × String)
deriving DecidableEq, Repr

/-- First value of a named field in the payload. -/
def getField (payload : List (String × String)) (name : String) :
    Option String :=
  (payload.find? (fun f => f.1 == name)).map (fun f => f.2)

/-- The value `DeleteFormSchema` parses on success:
`intent: z.literal("delete-note")`, `noteId: z.string()`. -/
structure DeleteFormValue where
  intent : String
  noteId : String
deriving DecidableEq, Repr

/-- Field error `DeleteFormSchema` reports on `intent`: missing, or not the
literal "delete-note". -/
def intentError (payload : List (String × String)) : Option String :=
  match getField payload "intent" with
  | none => some "Required"
  | some v =>
    if v == "delete-note" then none
    else some "Invalid literal value, expected delete-note"

/-- Field error `DeleteFormSchema` reports on `noteId`: missing. -/
def noteIdError (payload : List (String × String)) : Option String :=
  match getField payload "noteId" with
  | none => some "Required"
  | some _ => none

/-- `submission.value`: the schema-validated form value, present exactly
when both fields validate. -/
def parseDeleteForm (payload : List (String × String)) :
    Option DeleteFormValue :=
  match getField payload "intent", getField payload "noteId" with
  | some i, some nid =>
    if i == "delete-note" then some { intent := i, noteId := nid } else none
  | _, _ => none

/-- What the action responds with: `json status idle` (200),
`json status error` (400), thrown 404, thrown 403 with the
`error`/`message` payload, or a redirect (302). -/
inductive ActionResult where
  | idle (submission : Submission)
  | badRequest (submission : Submission)
  | notFound
  | unauthorized (error : String) (message : String)
  | redirectTo (location : String)
deriving DecidableEq, Repr

/-- HTTP status of an action result. -/
def ActionResult.statusCode : ActionResult → Nat
  | .idle _ => 200
  | .badRequest _ => 400
  | .notFound => 404
  | .unauthorized _ _ => 403
  | .redirectTo _ => 302

/-- The note fetch of the action: `prisma.note.findFirst where id = noteId`,
selecting the username of the owner through the required relation
(`owner: select username`), i.e. an inner join to the user table. -/
def findNoteWithOwner (db : DB) (noteId : String) : Option (Note × User) :=
  (db.notes.find? (fun n => n.id == noteId)).bind (fun n =>
    (db.users.find? (fun u => u.id == n.ownerId)).map (fun u => (n, u)))

/-- `prisma.note.delete where id = noteId`: remove the matching rows. -/
def deleteNote (db : DB) (noteId : String) : DB :=
  { db with notes := db.notes.filter (fun n => !(n.id == noteId)) }

/-- The action, after `requireUserId` has produced `userId`.  The route
param is passed by the framework but never read by the action body
(`action({ request })` destructures only the request): the note to act on
comes solely from the `noteId` field of the form.  Order mirrors the source:
intent check, schema check, note fetch (404), permission gate (403),
delete, redirect. -/
def action (db : DB) (userId : String) (sub : Submission)
    (_paramNoteId : String) : ActionResult × DB :=
  if sub.intent != "submit" then (.idle sub, db)
  else
    match parseDeleteForm sub.payload with
    | none => (.badRequest sub, db)
    | some v =>
      match findNoteWithOwner db v.noteId with
      | none => (.notFound, db)
      | some (note, owner) =>
        if hasDeletePermission db userId note.ownerId then
          (.redirectTo ("/users/" ++ owner.username ++ "/notes"),
           deleteNote db note.id)
        else
          (.unauthorized "Unauthorized"
            "Unauthorized: requires permission delete:note", db)

/-- The capability-gated parts of the rendered view: whether the floating
toolbar renders (`displayBar ? ... : null`), whether the delete form
renders inside it (`canDelete ? DeleteNote : null`), and whether the edit
button renders (unconditional inside the bar). -/
structure NoteView where
  displayBar : Bool
  showDelete : Bool
  showEdit : Bool
deriving DecidableEq, Repr

/-- Gating in `NoteRoute`: `displayBar = canDelete || isOwner`; the delete
control and the edit button live inside the bar, delete additionally
guarded by `canDelete`. -/
def renderNote (canDelete isOwner : Bool) : NoteView :=
  let displayBar := canDelete || isOwner
  { displayBar := displayBar
    showDelete := displayBar && canDelete
    showEdit := displayBar }

/-- `isOwner = user?.id === data.note.ownerId` for the optional viewer. -/
def viewerIsOwner (userOpt : Option User) (note : Note) : Bool :=
  match userOpt with
  | none => false
  | some u => u.id == note.ownerId

/-- The view for a loaded note and optional viewer. -/
def noteRouteView (userOpt : Option User) (note : Note)
    (canDelete : Bool) : NoteView :=
  renderNote canDelete (viewerIsOwner userOpt note)

/-- The description content computed by the `meta` function:
`data && data.note.content.length > 100 ? content.slice(0, 97) + "..."
: "No content"`. -/
def noteContentsSummary (data : Option Note) : String :=
  match data with
  | some note =>
    if note.content.length > 100 then (note.content.take 97) ++ "..."
    else "No content"
  | none => "No content"

/-! ### Sample data for concrete evaluation -/

/-- Sample owner of the sample note. -/
def alice : User := { id := "u1", username := "alice", name := some "Alice" }

/-- Sample second user, not the owner. -/
def bob : User := { id := "u2", username := "bob", name := none }

/-- Sample note owned by `alice`. -/
def sampleNote : Note :=
  { id := "n1", title := "Koala notes", content := "hello",
    ownerId := "u1", updatedAt := "2023-07-01", images := [] }

/-- A role held by `bob`. -/
def adminRole : Role := { users := ["u2"] }

/-- `note:delete:any` carried by `adminRole`. -/
def deleteAnyPermission : Permission :=
  { entity := "note", action := "delete", access := "any",
    roles := [adminRole] }

/-- Store where `bob` may delete any note. -/
def dbWithPermission : DB :=
  { notes := [sampleNote], users := [alice, bob],
    permissions := [deleteAnyPermission] }

/-- Store with no permissions granted at all. -/
def dbNoPermission : DB :=
  { notes := [sampleNote], users := [alice, bob], permissions := [] }

/-- A well-formed delete submission targeting `sampleNote`. -/
def validDeleteSub : Submission :=
  { intent := "submit",
    payload := [("intent", "delete-note"), ("noteId", "n1")] }

/-- A submission whose payload lacks the `noteId` field. -/
def missingNoteIdSub : Submission :=
  { intent := "submit", payload := [("intent", "delete-note")] }

/-- A submission with a non-submit conform intent (e.g. a validation
round-trip). -/
def validationIntentSub : Submission :=
  { intent := "validate/noteId",
    payload := [("intent", "delete-note"), ("noteId", "n1")] }

/-- A well-formed delete submission targeting a note id absent from the
sample stores. -/
def missingTargetSub : Submission :=
  { intent := "submit",
    payload := [("intent", "delete-note"), ("noteId", "nope")] }

/-- Sample note whose content is 110 characters long. -/
def longNote : Note :=
  { id := "n2", title := "Long",
    content :=
      "01234567890123456789012345678901234567890123456789012345678901234567890123456789012345678901234567890123456789",
    ownerId := "u1", updatedAt := "2023-07-02", images := [] }

/-! ### Helper lemmas -/

/-- A permission row matches the Prisma `where` clause exactly when it is a
`note`/`delete` permission held by the user through some role whose access
is "any", or "own" with the user as owner. -/
theorem permissionMatches_iff (userId ownerId : String) (p : Permission) :
    permissionMatches userId ownerId p = true ↔
      (p.entity = "note" ∧ p.action = "delete" ∧
       (∃ r, r ∈ p.roles ∧ userId ∈ r.users) ∧
       (p.access = "any" ∨ (p.access = "own" ∧ userId = ownerId))) := by
  unfold permissionMatches
  by_cases h : ownerId = userId
  · subst h
    simp [List.any_eq_true]
    tauto
  · have h2 : (ownerId == userId) = false := by
      simpa using h
    have h3 : ¬(userId = ownerId) := fun e => h e.symm
    simp [List.any_eq_true, h2]
    tauto

/-- Facts the action can rely on about a successful note-with-owner fetch:
the note is in the store under the queried id, and the joined user is its
owner. -/
theorem findNoteWithOwner_spec (db : DB) (nid : String) (note : Note)
    (owner : User) (h : findNoteWithOwner db nid = some (note, owner)) :
    note ∈ db.notes ∧ note.id = nid ∧ owner ∈ db.users ∧
      owner.id = note.ownerId := by
  unfold findNoteWithOwner at h
  cases hf : db.notes.find? (fun n => n.id == nid) with
  | none => rw [hf] at h; simp at h
  | some n =>
    rw [hf] at h
    simp only [Option.some_bind] at h
    cases hu : db.users.find? (fun u => u.id == n.ownerId) with
    | none => rw [hu] at h; simp at h
    | some u =>
      rw [hu] at h
      simp only [Option.map_some', Option.some.injEq, Prod.mk.injEq] at h
      obtain ⟨h1, h2⟩ := h
      subst h1; subst h2
      refine ⟨List.mem_of_find?_eq_some hf, ?_,
        List.mem_of_find?_eq_some hu, ?_⟩
      · simpa using List.find?_some hf
      · simpa using List.find?_some hu

/-! ### Claim theorems -/

/-- C1: For every requesting user and note, the delete-permission predicate
(the `Boolean(permission)` of the `prisma.permission.findFirst` query,
which both the loader — as `canDelete` — and the action — as the
authorization gate — compute via `hasDeletePermission`) is true if and only
if some permission record with entity "note" and action "delete" is held by
the user through some role, with access "any", or access "own" while the
requesting user id equals the owner id of the note. -/
theorem hasDeletePermission_iff_canDeleteSpec (db : DB) (userId : String)
    (note : Note) :
    hasDeletePermission db userId note.ownerId = true ↔
      canDeleteSpec db userId note := by
  unfold hasDeletePermission canDeleteSpec
  rw [List.any_eq_true]
  constructor
  · rintro ⟨p, hp, hm⟩
    rw [permissionMatches_iff] at hm
    exact ⟨p, hp, hm.1, hm.2.1, hm.2.2.1, hm.2.2.2⟩
  · rintro ⟨p, hp, he, ha, hr, hc⟩
    exact ⟨p, hp, (permissionMatches_iff _ _ _).mpr ⟨he, ha, hr, hc⟩⟩

/-- C2: A delete submission by an actor lacking the delete permission for
the targeted note yields the thrown 403 response and leaves the store
untouched (the returned store is the input store, and the note is still
persisted in it). -/
theorem action_unauthorized_eq (db : DB) (userId : String) (sub : Submission)
    (param : String) (v : DeleteFormValue) (note : Note) (owner : User)
    (hi : sub.intent = "submit")
    (hv : parseDeleteForm sub.payload = some v)
    (hn : findNoteWithOwner db v.noteId = some (note, owner))
    (hp : hasDeletePermission db userId note.ownerId = false) :
    action db userId sub param =
      (.unauthorized "Unauthorized"
        "Unauthorized: requires permission delete:note", db) ∧
    (action db userId sub param).1.statusCode = 403 ∧
    note ∈ db.notes := by
  have h1 : action db userId sub param =
      (.unauthorized "Unauthorized"
        "Unauthorized: requires permission delete:note", db) := by
    simp [action, hi, hv, hn, hp]
  exact ⟨h1, by rw [h1]; rfl,
    (findNoteWithOwner_spec db v.noteId note owner hn).1⟩

/-- C2 witness: in the store with no permissions, `bob` submitting a valid
delete for the note of `alice` gets the 403 payload and the store is
unchanged. -/
theorem action_unauthorized_eq_witness :
    action dbNoPermission "u2" validDeleteSub "n1" =
      (.unauthorized "Unauthorized"
        "Unauthorized: requires permission delete:note", dbNoPermission) ∧
    (action dbNoPermission "u2" validDeleteSub "n1").1.statusCode = 403 ∧
    sampleNote ∈ dbNoPermission.notes :=
  action_unauthorized_eq dbNoPermission "u2" validDeleteSub "n1"
    { intent := "delete-note", noteId := "n1" } sampleNote alice rfl
    (by decide) (by decide) (by decide)

/-- C3: A valid delete submission by an actor with the delete permission
for an existing note redirects (302) to `/users/{ownerUsername}/notes` —
with `ownerUsername` the username joined for the owner of the note before
deletion — and removes the note from the store, leaving every other note in
place. -/
theorem action_delete_redirects (db : DB) (userId : String) (sub : Submission)
    (param : String) (v : DeleteFormValue) (note : Note) (owner : User)
    (hi : sub.intent = "submit")
    (hv : parseDeleteForm sub.payload = some v)
    (hn : findNoteWithOwner db v.noteId = some (note, owner))
    (hp : hasDeletePermission db userId note.ownerId = true) :
    (action db userId sub param).1 =
      .redirectTo ("/users/" ++ owner.username ++ "/notes") ∧
    (action db userId sub param).1.statusCode = 302 ∧
    owner.id = note.ownerId ∧
    (action db userId sub param).2.notes.find?
      (fun n => n.id == v.noteId) = none ∧
    (∀ n, n ∈ db.notes → n.id ≠ v.noteId →
      n ∈ (action db userId sub param).2.notes) := by
  obtain ⟨hmem, hid, humem, hoid⟩ :=
    findNoteWithOwner_spec db v.noteId note owner hn
  have h1 : action db userId sub param =
      (.redirectTo ("/users/" ++ owner.username ++ "/notes"),
       deleteNote db note.id) := by
    simp [action, hi, hv, hn, hp]
  rw [h1]
  refine ⟨rfl, rfl, hoid, ?_, ?_⟩
  · rw [List.find?_eq_none]
    intro n hn2
    have hn3 := (List.mem_filter.mp hn2).2
    rw [hid] at hn3
    simpa using hn3
  · intro n hmem2 hne
    have : (!(n.id == note.id)) = true := by
      rw [hid]; simpa using hne
    exact List.mem_filter.mpr ⟨hmem2, this⟩

/-- C3 witness: in the store granting `bob` the `note:delete:any`
permission, a valid delete submission by `bob` redirects to the notes page
of `alice` and the note is gone from the store. -/
theorem action_delete_redirects_witness :
    (action dbWithPermission "u2" validDeleteSub "n1").1 =
      .redirectTo ("/users/" ++ alice.username ++ "/notes") ∧
    (action dbWithPermission "u2" validDeleteSub "n1").1.statusCode = 302 ∧
    (action dbWithPermission "u2" validDeleteSub "n1").2.notes.find?
      (fun n => n.id == "n1") = none :=
  ⟨(action_delete_redirects dbWithPermission "u2" validDeleteSub "n1"
      { intent := "delete-note", noteId := "n1" } sampleNote alice rfl
      (by decide) (by decide) (by decide)).1,
   (action_delete_redirects dbWithPermission "u2" validDeleteSub "n1"
      { intent := "delete-note", noteId := "n1" } sampleNote alice rfl
      (by decide) (by decide) (by decide)).2.1,
   (action_delete_redirects dbWithPermission "u2" validDeleteSub "n1"
      { intent := "delete-note", noteId := "n1" } sampleNote alice rfl
      (by decide) (by decide) (by decide)).2.2.2.1⟩

/-- C4: A loader request with no authenticated user id returns
`canDelete = false` with `permissionQueried = false`: the permission table
is never consulted on the anonymous path. -/
theorem loader_anonymous_no_query (db : DB) (nid : String) (note : Note)
    (h : db.notes.find? (fun n => n.id == nid) = some note) :
    loader db none nid = .success note false false := by
  unfold loader; rw [h]

/-- C4 witness: the anonymous loader on the sample store. -/
theorem loader_anonymous_no_query_witness :
    loader dbNoPermission none "n1" = .success sampleNote false false :=
  loader_anonymous_no_query dbNoPermission "n1" sampleNote (by decide)

/-- C5: For a note id absent from the store, the loader responds 404
(for any optional viewer) and the action — once validation passed and the
form targets that id — responds 404 with the store unmodified. -/
theorem missing_note_404 (db : DB) (userId : String) (sub : Submission)
    (param nid : String) (v : DeleteFormValue)
    (h : db.notes.find? (fun n => n.id == nid) = none) :
    (∀ uo, loader db uo nid = .error 404 "Not found") ∧
    (LoaderResult.error 404 "Not found").statusCode = 404 ∧
    (sub.intent = "submit" → parseDeleteForm sub.payload = some v →
      v.noteId = nid →
      action db userId sub param = (.notFound, db) ∧
      (ActionResult.notFound).statusCode = 404) := by
  refine ⟨?_, rfl, ?_⟩
  · intro uo; unfold loader; rw [h]
  · intro hi hv hvid
    have hfn : findNoteWithOwner db v.noteId = none := by
      unfold findNoteWithOwner; rw [hvid, h]; rfl
    exact ⟨by simp [action, hi, hv, hfn], rfl⟩

/-- C5 witness: id "nope" is in neither sample store; the loader 404s for
an authenticated viewer and the delete action 404s without mutation. -/
theorem missing_note_404_witness :
    loader dbNoPermission (some "u2") "nope" = .error 404 "Not found" ∧
    action dbNoPermission "u2" missingTargetSub "n1" =
      (.notFound, dbNoPermission) :=
  ⟨(missing_note_404 dbNoPermission "u2" missingTargetSub "n1" "nope"
      { intent := "delete-note", noteId := "nope" } (by decide)).1
      (some "u2"),
   ((missing_note_404 dbNoPermission "u2" missingTargetSub "n1" "nope"
      { intent := "delete-note", noteId := "nope" } (by decide)).2.2 rfl
      (by decide) rfl).1⟩

/-- C6: A submission whose conform intent is not "submit" is returned
unchanged as an idle 200; a "submit" submission failing the schema is
returned as a 400 with a field error present (on `intent` or `noteId`),
the store untouched in both cases; in particular a payload missing
`noteId` carries the "Required" error on `noteId`. -/
theorem action_validation_responses (db : DB) (userId : String)
    (sub : Submission) (param : String) :
    (sub.intent ≠ "submit" →
      action db userId sub param = (.idle sub, db) ∧
      (ActionResult.idle sub).statusCode = 200) ∧
    (sub.intent = "submit" → parseDeleteForm sub.payload = none →
      action db userId sub param = (.badRequest sub, db) ∧
      (ActionResult.badRequest sub).statusCode = 400 ∧
      (intentError sub.payload ≠ none ∨ noteIdError sub.payload ≠ none)) ∧
    (getField sub.payload "noteId" = none →
      noteIdError sub.payload = some "Required") := by
  refine ⟨?_, ?_, ?_⟩
  · intro hi
    have hne : (sub.intent != "submit") = true := by
      simpa [bne_iff_ne] using hi
    exact ⟨by simp [action, hne], rfl⟩
  · intro hi hv
    refine ⟨by simp [action, hi, hv], rfl, ?_⟩
    cases hgi : getField sub.payload "intent" with
    | none => left; simp [intentError, hgi]
    | some i =>
      by_cases hdel : i = "delete-note"
      · right
        cases hgn : getField sub.payload "noteId" with
        | none => simp [noteIdError, hgn]
        | some nid =>
          exfalso
          unfold parseDeleteForm at hv
          rw [hgi, hgn] at hv
          simp [hdel] at hv
      · left; simp [intentError, hgi, hdel]
  · intro hnone; simp [noteIdError, hnone]

/-- C6 witness: a validation-intent submission comes back idle and
unchanged; a submit lacking `noteId` comes back as a 400 with the
"Required" error on `noteId`, the store untouched. -/
theorem action_validation_responses_witness :
    action dbNoPermission "u2" validationIntentSub "n1" =
      (.idle validationIntentSub, dbNoPermission) ∧
    action dbNoPermission "u2" missingNoteIdSub "n1" =
      (.badRequest missingNoteIdSub, dbNoPermission) ∧
    noteIdError missingNoteIdSub.payload = some "Required" :=
  ⟨((action_validation_responses dbNoPermission "u2" validationIntentSub
      "n1").1 (by decide)).1,
   ((action_validation_responses dbNoPermission "u2" missingNoteIdSub
      "n1").2.1 rfl (by decide)).1,
   (action_validation_responses dbNoPermission "u2" missingNoteIdSub
      "n1").2.2 (by decide)⟩

/-- C7: Whenever the action responds 403, the payload is exactly
`error = "Unauthorized"` with the fixed message
"Unauthorized: requires permission delete:note" — a constant independent of
every input, so in particular leaking nothing about which access scope
("own" vs "any") failed — and the store is returned unmodified. -/
theorem action_403_payload (db : DB) (userId : String) (sub : Submission)
    (param e m : String) (db2 : DB)
    (h : action db userId sub param = (.unauthorized e m, db2)) :
    e = "Unauthorized" ∧
    m = "Unauthorized: requires permission delete:note" ∧ db2 = db := by
  by_cases hi : sub.intent = "submit"
  · unfold action at h
    simp only [hi, bne_self_eq_false, Bool.false_eq_true, if_false] at h
    cases hv : parseDeleteForm sub.payload with
    | none => rw [hv] at h; simp at h
    | some v =>
      simp only [hv] at h
      cases hn : findNoteWithOwner db v.noteId with
      | none => rw [hn] at h; simp at h
      | some pair =>
        obtain ⟨note, owner⟩ := pair
        rw [hn] at h
        by_cases hp : hasDeletePermission db userId note.ownerId = true
        · simp [hp] at h
        · simp only [Bool.not_eq_true] at hp
          simp only [hp, Bool.false_eq_true, if_false, Prod.mk.injEq,
            ActionResult.unauthorized.injEq] at h
          exact ⟨h.1.1.symm, h.1.2.symm, h.2.symm⟩
  · have hne : (sub.intent != "submit") = true := by
      simpa [bne_iff_ne] using hi
    unfold action at h
    rw [hne] at h
    simp at h

/-- C7 witness: the 403 path is reachable (no-permission store) and its
payload is the constant pair. -/
theorem action_403_payload_witness :
    action dbNoPermission "u2" validDeleteSub "n1" =
      (.unauthorized "Unauthorized"
        "Unauthorized: requires permission delete:note", dbNoPermission) ∧
    (("Unauthorized" : String) = "Unauthorized" ∧
     ("Unauthorized: requires permission delete:note" : String) =
       "Unauthorized: requires permission delete:note" ∧
     dbNoPermission = dbNoPermission) :=
  ⟨by decide,
   action_403_payload dbNoPermission "u2" validDeleteSub "n1"
     "Unauthorized" "Unauthorized: requires permission delete:note"
     dbNoPermission (by decide)⟩

/-- C8 counterexample: with the viewer owning the note but holding no
delete permission, the predicate-or-owner disjunction holds (the viewer is
the owner, the bar renders), yet the delete control does not render — so
the delete control is not "shown conditionally on the delete-permission
predicate or on the viewer being the owner"; it is gated by the predicate
alone. -/
theorem noteView_owner_without_permission :
    viewerIsOwner (some alice) sampleNote = true ∧
    hasDeletePermission dbNoPermission alice.id sampleNote.ownerId = false ∧
    (noteRouteView (some alice) sampleNote
      (hasDeletePermission dbNoPermission alice.id
        sampleNote.ownerId)).displayBar = true ∧
    (noteRouteView (some alice) sampleNote
      (hasDeletePermission dbNoPermission alice.id
        sampleNote.ownerId)).showDelete = false := by
  decide

/-- C8 (amended): the floating action bar renders iff the delete-permission
predicate holds or the viewer owns the note; inside it, the delete control
renders iff the predicate holds (ownership alone does not show it), and the
edit control renders whenever the bar does. -/
theorem noteView_gating (canDelete isOwner : Bool) :
    (renderNote canDelete isOwner).displayBar = (canDelete || isOwner) ∧
    (renderNote canDelete isOwner).showDelete = canDelete ∧
    (renderNote canDelete isOwner).showEdit = (canDelete || isOwner) := by
  cases canDelete <;> cases isOwner <;> decide

/-- C9: The action reads its target only from the `noteId` form field: its
result does not depend on the note id in the route path at all, and on the
delete path the store it returns is the input store minus exactly the notes
whose id equals the `noteId` of the form value. -/
theorem action_target_is_form_noteId (db : DB) (userId : String)
    (sub : Submission) (p1 p2 : String) (v : DeleteFormValue)
    (hv : parseDeleteForm sub.payload = some v) :
    action db userId sub p1 = action db userId sub p2 ∧
    (∀ loc db2, action db userId sub p1 = (.redirectTo loc, db2) →
      db2.notes = db.notes.filter (fun n => !(n.id == v.noteId))) := by
  refine ⟨rfl, ?_⟩
  intro loc db2 h
  by_cases hi : sub.intent = "submit"
  · unfold action at h
    simp only [hi, bne_self_eq_false, Bool.false_eq_true, if_false, hv] at h
    cases hn : findNoteWithOwner db v.noteId with
    | none => rw [hn] at h; simp at h
    | some pair =>
      obtain ⟨note, owner⟩ := pair
      rw [hn] at h
      have hid := (findNoteWithOwner_spec db v.noteId note owner hn).2.1
      by_cases hp : hasDeletePermission db userId note.ownerId = true
      · simp only [hp, if_true, Prod.mk.injEq] at h
        rw [← h.2, ← hid]
        rfl
      · simp only [Bool.not_eq_true] at hp
        simp [hp] at h
  · have hne : (sub.intent != "submit") = true := by
      simpa [bne_iff_ne] using hi
    unfold action at h
    rw [hne] at h
    simp at h

/-- C9 witness: the same submission under two different route-path note ids
gives identical results, and the deleted id is the one from the form. -/
theorem action_target_is_form_noteId_witness :
    action dbWithPermission "u2" validDeleteSub "some-other-id" =
      action dbWithPermission "u2" validDeleteSub "n1" ∧
    (deleteNote dbWithPermission "n1").notes =
      dbWithPermission.notes.filter (fun n => !(n.id == "n1")) :=
  ⟨(action_target_is_form_noteId dbWithPermission "u2" validDeleteSub
      "some-other-id" "n1" { intent := "delete-note", noteId := "n1" }
      (by decide)).1,
   (action_target_is_form_noteId dbWithPermission "u2" validDeleteSub
      "some-other-id" "n1" { intent := "delete-note", noteId := "n1" }
      (by decide)).2 ("/users/" ++ alice.username ++ "/notes")
     (deleteNote dbWithPermission "n1") (by decide)⟩

/-- C10: The description metadata is the constant "No content" whenever the
loaded note has content of at most 100 characters, and the 97-character
truncation with "..." only when the content exceeds 100 characters. -/
theorem meta_description_summary (note : Note) :
    (note.content.length ≤ 100 →
      noteContentsSummary (some note) = "No content") ∧
    (100 < note.content.length →
      noteContentsSummary (some note) = (note.content.take 97) ++ "...") := by
  have he : noteContentsSummary (some note) =
      if note.content.length > 100 then (note.content.take 97) ++ "..."
      else "No content" := rfl
  constructor
  · intro h
    rw [he, if_neg (by omega)]
  · intro h
    rw [he, if_pos (by omega)]

/-- C10 witness: a 5-character note is described as "No content"; a
110-character note is described by its 97-character prefix and "...". -/
theorem meta_description_summary_witness :
    sampleNote.content.length ≤ 100 ∧
    noteContentsSummary (some sampleNote) = "No content" ∧
    100 < longNote.content.length ∧
    noteContentsSummary (some longNote) =
      (longNote.content.take 97) ++ "..." :=
  ⟨by decide, (meta_description_summary sampleNote).1 (by decide),
   by decide, (meta_description_summary longNote).2 (by decide)⟩
